import Mathlib

/-!
Shallow embedding of the TOS-IOSAuto OCR auto-clicker (src/main.py,
src/auto_clicker.py).

The program keeps an ordered list of captured screen regions
(`CaptureInfo`), persists them as JSON records with a base64-encoded
PNG image, and replays mouse clicks on a region's centre whenever a
fresh OCR of the region's bounds still matches the stored text.

Modelling conventions:
* A `QPixmap` is represented by its PNG byte serialisation
  (`List Nat`, each byte `< 256`); PNG encoding is lossless, so
  "pixel-identical" becomes byte-identical.
* Python exceptions are modelled with `Option`/`Except`, with the
  state at the raise point carried alongside where a claim needs it.
* `pyautogui` effects are recorded as an event trace (`Ev`); the
  recognizer and the click primitive are oracles in an `Env`.
* Python `//` on ints is `Int.fdiv` (floor division).
-/

namespace TosIosAuto

/-- Region record from `CaptureInfo.__init__` (src/main.py lines 29-37):
bounds, PNG image bytes, recognized text, click-repeat count. -/
structure CaptureInfo where
  x : Int
  y : Int
  width : Int
  height : Int
  image : List Nat
  ocr_text : String
  click_count : Nat
deriving DecidableEq, Repr

/-- The standard base64 alphabet used by Python's `base64.b64encode`. -/
def b64Alphabet : List Char :=
  ['A', 'B', 'C', 'D', 'E', 'F', 'G', 'H', 'I', 'J', 'K', 'L', 'M',
   'N', 'O', 'P', 'Q', 'R', 'S', 'T', 'U', 'V', 'W', 'X', 'Y', 'Z',
   'a', 'b', 'c', 'd', 'e', 'f', 'g', 'h', 'i', 'j', 'k', 'l', 'm',
   'n', 'o', 'p', 'q', 'r', 's', 't', 'u', 'v', 'w', 'x', 'y', 'z',
   '0', '1', '2', '3', '4', '5', '6', '7', '8', '9', '+', '/']

/-- Character for a 6-bit group. -/
def b64char (n : Nat) : Char := b64Alphabet.getD n 'A'

/-- Value of a base64 character, `none` for padding or foreign characters. -/
def b64val (ch : Char) : Option Nat := b64Alphabet.findIdx? (fun a => a == ch)

/-- Base64 encoding of a byte list (`base64.b64encode`): 3 bytes map to
4 characters, a 2-byte tail to 3 characters plus `=`, a 1-byte tail to
2 characters plus `==`. -/
def b64encode : List Nat → List Char
  | [] => []
  | [b0] => [b64char (b0 / 4), b64char (b0 % 4 * 16), '=', '=']
  | [b0, b1] => [b64char (b0 / 4), b64char (b0 % 4 * 16 + b1 / 16),
                 b64char (b1 % 16 * 4), '=']
  | b0 :: b1 :: b2 :: rest =>
      b64char (b0 / 4) :: b64char (b0 % 4 * 16 + b1 / 16) ::
      b64char (b1 % 16 * 4 + b2 / 64) :: b64char (b2 % 64) :: b64encode rest

/-- Scan loop of CPython's `binascii.a2b_base64` in its lenient mode —
the path taken by `base64.b64decode(s)` with the default
`validate=False`. Characters outside the alphabet are discarded, not
errors; alphabet characters fill a quad (`quad_pos`, with `leftchar`
carrying bits), emitting one byte at quad positions 1, 2 and 3; a run
of pad characters reaching position four from quad position two or
three ends the scan, keeping the bytes emitted so far; a quad left
incomplete at the end of the input raises `binascii.Error` (`none`:
one leftover data character, or missing padding). -/
def a2bBase64 : List Char → Nat → Nat → Nat → Option (List Nat)
  | [], quad_pos, _, _ => if quad_pos = 0 then some [] else none
  | ch :: rest, quad_pos, leftchar, pads =>
      if ch = '=' then
        if 2 ≤ quad_pos ∧ 4 ≤ quad_pos + pads + 1 then some []
        else a2bBase64 rest quad_pos leftchar
               (if 2 ≤ quad_pos then pads + 1 else pads)
      else
        match b64val ch with
        | none => a2bBase64 rest quad_pos leftchar pads
        | some v =>
            match quad_pos with
            | 0 => a2bBase64 rest 1 v 0
            | 1 => Option.map (fun bs => (leftchar * 4 + v / 16) :: bs)
                     (a2bBase64 rest 2 (v % 16) 0)
            | 2 => Option.map (fun bs => (leftchar * 16 + v / 4) :: bs)
                     (a2bBase64 rest 3 (v % 4) 0)
            | _ => Option.map (fun bs => (leftchar * 64 + v) :: bs)
                     (a2bBase64 rest 0 0 0)

/-- `base64.b64decode` with default arguments: the lenient
`binascii.a2b_base64` scan started on an empty quad. -/
def b64decode (s : List Char) : Option (List Nat) := a2bBase64 s 0 0 0

/-- One JSON record of the persisted file (schema of
`CaptureInfo.to_dict`, src/main.py lines 56-64). `click_count` is
`Option` because `from_dict` tolerates its absence via
`data.get("click_count", 1)` (line 84). -/
structure CaptureDict where
  x : Int
  y : Int
  width : Int
  height : Int
  ocr_text : String
  click_count : Option Nat
  encoded_image : List Char
deriving DecidableEq, Repr

/-- Embedding of `CaptureInfo.to_dict` (src/main.py lines 42-64): serialise bounds,
text and click count, and base64-encode the PNG bytes of the image. -/
def CaptureInfo.to_dict (c : CaptureInfo) : CaptureDict :=
  { x := c.x
    y := c.y
    width := c.width
    height := c.height
    ocr_text := c.ocr_text
    click_count := some c.click_count
    encoded_image := b64encode c.image }

/-- Embedding of `CaptureInfo.from_dict` (src/main.py lines 66-85): decode the base64
image and rebuild the record; a decode failure is the propagated Python
exception (`none`). Missing `click_count` defaults to 1. -/
def CaptureInfo.from_dict (d : CaptureDict) : Option CaptureInfo :=
  match b64decode d.encoded_image with
  | none => none
  | some bytes =>
      some { x := d.x
             y := d.y
             width := d.width
             height := d.height
             image := bytes
             ocr_text := d.ocr_text
             click_count := d.click_count.getD 1 }

/-- Content of `saved_captures.json` as the loader can find it. -/
inductive FileContent where
  | missing
  | invalid
  | records (rs : List CaptureDict)
deriving DecidableEq, Repr

/-- Embedding of `save_captures_to_json` (src/main.py lines 553-560): rewrite the
whole file with one record per capture, in order. -/
def save_captures_to_json (cs : List CaptureInfo) : FileContent :=
  FileContent.records (cs.map CaptureInfo.to_dict)

/-- The `for item in data_list` loop of `load_captures_from_json`
(src/main.py lines 574-577): append records until the first
`from_dict` exception; the Boolean reports whether the warning
dialog was shown. -/
def loadRecords : List CaptureDict → List CaptureInfo × Bool
  | [] => ([], false)
  | d :: rest =>
      match CaptureInfo.from_dict d with
      | none => ([], true)
      | some c =>
          let (cs, w) := loadRecords rest
          (c :: cs, w)

/-- Embedding of `load_captures_from_json` (src/main.py lines 562-580): a missing
file is skipped silently, leaving the store as it was; a JSON parse
failure raises before `captures.clear()`, so the store is also kept
and a warning shown; a parsed record list replaces the store, keeping
the records decoded before any failure. Returns (store, warningShown). -/
def load_captures_from_json : FileContent → List CaptureInfo → List CaptureInfo × Bool
  | FileContent.missing, cs0 => (cs0, false)
  | FileContent.invalid, cs0 => (cs0, true)
  | FileContent.records rs, _ => loadRecords rs

/-- The preset list `counts = [1, 2, 3, 5, 10]` of `set_click_count`
(src/main.py line 328). -/
def counts : List Nat := [1, 2, 3, 5, 10]

/-- The click-count update of `set_click_count` (src/main.py lines
329-330): `current_index = counts.index(n) if n in counts else 0`,
then `counts[(current_index + 1) % len(counts)]`. -/
def cycleClickCount (n : Nat) : Nat :=
  let current_index := if n ∈ counts then counts.indexOf n else 0
  counts.getD ((current_index + 1) % counts.length) 0

/-- Embedding of `set_click_count` at the store level (src/main.py lines 324-333):
a negative current row (no selection) is a silent no-op; otherwise the
selected capture's `click_count` advances along the preset cycle and
the store is persisted. Returns (store, persisted flag). -/
def set_click_count (cs : List CaptureInfo) (current_row : Int) :
    List CaptureInfo × Bool :=
  if 0 ≤ current_row then
    (cs.modify (fun c => { c with click_count := cycleClickCount c.click_count })
        current_row.toNat, true)
  else (cs, false)

/-- Characters of a string with leading and trailing whitespace
removed. -/
def stripChars (l : List Char) : List Char :=
  ((l.dropWhile Char.isWhitespace).reverse.dropWhile Char.isWhitespace).reverse

/-- Python's `str.strip()` with no argument: drop whitespace from both
ends (src/main.py line 413 compares stripped strings). -/
def pyStrip (s : String) : String := ⟨stripChars s.data⟩

/-- Mouse events issued through pyautogui. -/
inductive Ev where
  | moveTo (x y : Int)
  | click
deriving DecidableEq, Repr

/-- External world of one batch: the pointer position reported by
`pyautogui.position()` at batch start, the OCR outcome for the fresh
screenshot of the i-th processed region (`Except.error` models a
capture/recognition exception), and whether the j-th `pyautogui.click()`
of region i succeeds (`false` models a click-primitive exception). -/
structure Env where
  pos : Int × Int
  ocr : Nat → Except String String
  clickOk : Nat → Nat → Bool

/-- The inner `for i in range(capture.click_count)` loop (src/main.py
lines 417-426): each iteration moves to the centre and clicks; a click
failure raises after the move. Returns the events issued and the
exception, if any. -/
def clickLoop (env : Env) (ridx : Nat) (cx cy : Int) :
    Nat → Nat → List Ev × Option String
  | _, 0 => ([], none)
  | i, n + 1 =>
      if env.clickOk ridx i then
        let (evs, err) := clickLoop env ridx cx cy (i + 1) n
        (Ev.moveTo cx cy :: Ev.click :: evs, err)
      else
        (Ev.moveTo cx cy :: [], some "click failed")

/-- The `for capture in self.captures` loop of `execute_all_clicks`
(src/main.py lines 403-433): re-capture and re-recognise each region;
on an exact trimmed match click the centre `click_count` times, else
skip; any exception aborts the remaining regions. -/
def execFrom (env : Env) : Nat → List CaptureInfo → List Ev × Option String
  | _, [] => ([], none)
  | idx, c :: rest =>
      match env.ocr idx with
      | Except.error e => ([], some e)
      | Except.ok current_ocr_text =>
          if pyStrip current_ocr_text = pyStrip c.ocr_text then
            let click_x := c.x + Int.fdiv c.width 2
            let click_y := c.y + Int.fdiv c.height 2
            let (evs, err) := clickLoop env idx click_x click_y 0 c.click_count
            match err with
            | some e => (evs, some e)
            | none =>
                let (evs2, err2) := execFrom env (idx + 1) rest
                (evs ++ evs2, err2)
          else
            execFrom env (idx + 1) rest

/-- Observable outcome of one `execute_all_clicks` batch. -/
structure ExecResult where
  events : List Ev
  error : Option String
  reported : Bool
deriving DecidableEq, Repr

/-- Embedding of `execute_all_clicks` (src/main.py lines 390-444): record the
pointer position, process all regions, and restore the pointer — but
only on the no-exception path, because the restoring `moveTo` sits at
the end of the `try` block; the `except` handler shows the error
dialog only when not in infinite mode and performs no restore. -/
def execute_all_clicks (env : Env) (cs : List CaptureInfo)
    (infinite_mode : Bool) : ExecResult :=
  let original_x := env.pos.1
  let original_y := env.pos.2
  let (evs, err) := execFrom env 0 cs
  match err with
  | none => { events := evs ++ [Ev.moveTo original_x original_y]
              error := none
              reported := false }
  | some e => { events := evs, error := some e, reported := !infinite_mode }

/-- Store together with the persisted file. -/
structure StoreState where
  captures : List CaptureInfo
  file : FileContent
deriving DecidableEq, Repr

/-- Embedding of `delete_capture` (src/main.py lines 316-322): a negative current
row fails the `current_row >= 0` guard and nothing happens; otherwise
`self.captures.pop(current_row)` removes the entry and the store is
saved, except that `pop` raises `IndexError` when the row is not
below the length, leaving store and file untouched. Returns the
exception, if any, and the state after the call. -/
def delete_capture (s : StoreState) (current_row : Int) :
    Option String × StoreState :=
  if 0 ≤ current_row then
    if current_row.toNat < s.captures.length then
      let captures := s.captures.eraseIdx current_row.toNat
      (none, { captures := captures, file := save_captures_to_json captures })
    else (some "IndexError", s)
  else (none, s)

/-- One batch call at the whole-state level: `execute_all_clicks` only
iterates over `self.captures` and assigns nothing to the store or the
file, so the state component is returned as received. -/
def executorBatch (env : Env) (s : StoreState) (infinite_mode : Bool) :
    ExecResult × StoreState :=
  (execute_all_clicks env s.captures infinite_mode, s)

/-- Any number of consecutive executor batches (the worker thread's
`while self.keep_running` loop re-invokes `execute_all_clicks`), each
under its own external world. -/
def runBatches (envs : List Env) (s : StoreState) : StoreState :=
  envs.foldl (fun st env => (executorBatch env st true).2) s

/-- Modelled from the spec: the events the executor contract promises
for one region whose fresh recognition returned `current_text` — on an
exact trimmed match, `click_count` clicks at the centre
`(x + width // 2, y + height // 2)`; on a mismatch, nothing. -/
def specRegionEvents (current_text : String) (c : CaptureInfo) : List Ev :=
  if pyStrip current_text = pyStrip c.ocr_text then
    (List.replicate c.click_count
      [Ev.moveTo (c.x + Int.fdiv c.width 2) (c.y + Int.fdiv c.height 2),
       Ev.click]).flatten
  else []

/-- Shared state of the Continuous Runner (src/main.py lines 151-167,
497-530, 540-551): whether `self.worker_thread` holds a running
thread, how many started `WorkerThread.run` loops have not returned,
the `keep_running` flag, whether a batch is currently executing inside
the loop body, and whether the GUI thread is blocked in
`worker_thread.wait()`. -/
structure Sys where
  workerRef : Bool
  activeLoops : Nat
  keepRunning : Bool
  inBatch : Bool
  waiting : Bool
deriving DecidableEq, Repr

/-- Startup state: `self.worker_thread = None` (src/main.py line 179). -/
def Sys.init : Sys :=
  { workerRef := false, activeLoops := 0, keepRunning := false,
    inBatch := false, waiting := false }

/-- Labels of the Runner transitions. -/
inductive L where
  | startSpawn
  | startNoop
  | batchStart
  | batchEnd
  | loopExit
  | stopSignal
  | stopReturn
  | stopNoop
deriving DecidableEq, Repr

/-- Small-step transitions of the Continuous Runner.
`startNoop`/`startSpawn` are the two paths of
`start_infinite_execution` (guard at line 503); `batchStart`/`batchEnd`
bracket one `execute_all_clicks` call of `WorkerThread.run`;
`loopExit` is `run` returning once `keep_running` is false and the
current batch is over; `stopSignal` is `stop_infinite_execution`
setting the flag and entering `wait()`; `stopReturn` is `wait()`
returning (only once the loop has exited) and `worker_thread = None`;
`stopNoop` is a stop request while no thread is running. -/
inductive Step : Sys → L → Sys → Prop where
  | startNoop (s : Sys) (h : s.workerRef = true) :
      Step s L.startNoop s
  | startSpawn (s : Sys) (h : s.workerRef = false) :
      Step s L.startSpawn
        { workerRef := true, activeLoops := s.activeLoops + 1,
          keepRunning := true, inBatch := s.inBatch, waiting := s.waiting }
  | batchStart (s : Sys) (h1 : 0 < s.activeLoops)
      (h2 : s.keepRunning = true) (h3 : s.inBatch = false) :
      Step s L.batchStart { s with inBatch := true }
  | batchEnd (s : Sys) (h : s.inBatch = true) :
      Step s L.batchEnd { s with inBatch := false }
  | loopExit (s : Sys) (h1 : 0 < s.activeLoops)
      (h2 : s.keepRunning = false) (h3 : s.inBatch = false) :
      Step s L.loopExit { s with activeLoops := s.activeLoops - 1 }
  | stopSignal (s : Sys) (h : s.workerRef = true) (hw : s.waiting = false) :
      Step s L.stopSignal { s with keepRunning := false, waiting := true }
  | stopReturn (s : Sys) (h : s.waiting = true) (h0 : s.activeLoops = 0) :
      Step s L.stopReturn { s with waiting := false, workerRef := false }
  | stopNoop (s : Sys) (h : s.workerRef = false) :
      Step s L.stopNoop s

/-- States reachable from startup. -/
inductive Reach : Sys → Prop where
  | init : Reach Sys.init
  | step {s : Sys} {l : L} {s' : Sys} :
      Reach s → Step s l s' → Reach s'

/-- Inductive invariant of the Runner. -/
def SysInv (s : Sys) : Prop :=
  s.activeLoops ≤ 1 ∧
  (s.workerRef = false → s.activeLoops = 0) ∧
  (s.activeLoops = 0 → s.inBatch = false) ∧
  (s.waiting = true → s.workerRef = true) ∧
  (s.waiting = true → s.keepRunning = false)

/-- Concrete region of the spec's scenario: bounds (10, 10, 50, 20),
text "Go", two clicks. -/
def capGo : CaptureInfo :=
  { x := 10, y := 10, width := 50, height := 20, image := [7, 255],
    ocr_text := "Go", click_count := 2 }

/-- World in which every fresh recognition returns "Go" and all clicks
succeed; the pointer starts at (100, 200). -/
def envGo : Env :=
  { pos := (100, 200), ocr := fun _ => Except.ok "Go",
    clickOk := fun _ _ => true }

/-- World in which the very first capture/recognition raises. -/
def envBoom : Env :=
  { pos := (5, 7), ocr := fun _ => Except.error "boom",
    clickOk := fun _ _ => true }

/-- World in which every recognition returns "Go" but the second click
of any region (click index 1) raises. -/
def envClickFail : Env :=
  { pos := (100, 200), ocr := fun _ => Except.ok "Go",
    clickOk := fun _ j => j == 0 }

/-- A persisted record whose image field is a single base64 data
character: `base64.b64decode` raises `binascii.Error` on it (one data
character is 1 more than a multiple of 4), so `from_dict` raises. -/
def dictBad : CaptureDict :=
  { x := 0, y := 0, width := 1, height := 1, ocr_text := "",
    click_count := some 1, encoded_image := ['a'] }

/-- A one-region store whose file matches the store. -/
def storeOne : StoreState :=
  { captures := [capGo], file := save_captures_to_json [capGo] }

theorem b64val_b64char_fin : ∀ n : Fin 64, b64val (b64char n.val) = some n.val := by
  decide

theorem b64char_ne_eq : ∀ n : Fin 64, b64char n.val ≠ '=' := by
  decide

theorem b64val_b64char {n : Nat} (h : n < 64) : b64val (b64char n) = some n :=
  b64val_b64char_fin ⟨n, h⟩

theorem b64char_ne {n : Nat} (h : n < 64) : b64char n ≠ '=' :=
  b64char_ne_eq ⟨n, h⟩

/-- Base64 round trip on byte lists: the lenient decoder recovers
every canonical encoding. -/
theorem b64decode_b64encode (bs : List Nat) (hb : ∀ b ∈ bs, b < 256) :
    b64decode (b64encode bs) = some bs := by
  induction bs using b64encode.induct with
  | case1 => rfl
  | case2 b0 =>
      have h0 : b0 < 256 := hb b0 (by simp)
      have e0 := b64val_b64char (show b0 / 4 < 64 by omega)
      have e1 := b64val_b64char (show b0 % 4 * 16 < 64 by omega)
      have n0 := b64char_ne (show b0 / 4 < 64 by omega)
      have n1 := b64char_ne (show b0 % 4 * 16 < 64 by omega)
      simp [b64decode, b64encode, a2bBase64, e0, e1, n0, n1]
      omega
  | case3 b0 b1 =>
      have h0 : b0 < 256 := hb b0 (by simp)
      have h1 : b1 < 256 := hb b1 (by simp)
      have e0 := b64val_b64char (show b0 / 4 < 64 by omega)
      have e1 := b64val_b64char (show b0 % 4 * 16 + b1 / 16 < 64 by omega)
      have e2 := b64val_b64char (show b1 % 16 * 4 < 64 by omega)
      have n0 := b64char_ne (show b0 / 4 < 64 by omega)
      have n1 := b64char_ne (show b0 % 4 * 16 + b1 / 16 < 64 by omega)
      have n2 := b64char_ne (show b1 % 16 * 4 < 64 by omega)
      simp [b64decode, b64encode, a2bBase64, e0, e1, e2, n0, n1, n2]
      omega
  | case4 b0 b1 b2 rest ih =>
      have h0 : b0 < 256 := hb b0 (by simp)
      have h1 : b1 < 256 := hb b1 (by simp)
      have h2 : b2 < 256 := hb b2 (by simp)
      have hrest : ∀ b ∈ rest, b < 256 := fun b h => hb b (by simp [h])
      have ih' : a2bBase64 (b64encode rest) 0 0 0 = some rest := by
        simpa [b64decode] using ih hrest
      have e0 := b64val_b64char (show b0 / 4 < 64 by omega)
      have e1 := b64val_b64char (show b0 % 4 * 16 + b1 / 16 < 64 by omega)
      have e2 := b64val_b64char (show b1 % 16 * 4 + b2 / 64 < 64 by omega)
      have e3 := b64val_b64char (show b2 % 64 < 64 by omega)
      have n0 := b64char_ne (show b0 / 4 < 64 by omega)
      have n1 := b64char_ne (show b0 % 4 * 16 + b1 / 16 < 64 by omega)
      have n2 := b64char_ne (show b1 % 16 * 4 + b2 / 64 < 64 by omega)
      have n3 := b64char_ne (show b2 % 64 < 64 by omega)
      simp [b64decode, b64encode, a2bBase64, e0, e1, e2, e3, n0, n1, n2, n3, ih']
      omega

/-- Serialising one capture and deserialising it is the identity when
the image consists of bytes. -/
theorem from_dict_to_dict (c : CaptureInfo) (hb : ∀ b ∈ c.image, b < 256) :
    CaptureInfo.from_dict (CaptureInfo.to_dict c) = some c := by
  simp only [CaptureInfo.to_dict, CaptureInfo.from_dict,
             b64decode_b64encode c.image hb, Option.getD_some]

/-- When every click of region `ridx` succeeds, the click loop issues
exactly `n` move-and-click pairs at the centre and raises nothing. -/
theorem clickLoop_ok (env : Env) (ridx : Nat) (cx cy : Int)
    (hclick : ∀ j, env.clickOk ridx j = true) :
    ∀ (n i : Nat), clickLoop env ridx cx cy i n =
      ((List.replicate n [Ev.moveTo cx cy, Ev.click]).flatten, none) := by
  intro n
  induction n with
  | zero => intro i; rfl
  | succ m ih =>
      intro i
      simp only [clickLoop, hclick i, if_true, ih (i + 1),
                 List.replicate_succ, List.flatten_cons]
      rfl

/-- When the first `cs.length` recognitions starting at index `k`
return the texts `ts` and every click succeeds, the region loop
produces exactly the per-region event blocks promised by the spec and
raises nothing. -/
theorem execFrom_ok (env : Env)
    (hclick : ∀ i j, env.clickOk i j = true) :
    ∀ (cs : List CaptureInfo) (ts : List String) (k : Nat),
    ts.length = cs.length →
    (∀ i, i < cs.length → env.ocr (k + i) = Except.ok (ts.getD i "")) →
    execFrom env k cs =
      (((cs.zip ts).map (fun p => specRegionEvents p.2 p.1)).flatten, none) := by
  intro cs
  induction cs with
  | nil => intro ts k _ _; rfl
  | cons c rest ih =>
      intro ts k hlen hocr
      match ts with
      | [] => simp at hlen
      | t :: ts' =>
          have h0 : env.ocr k = Except.ok t := by
            have := hocr 0 (by simp)
            simpa using this
          have hrest : ∀ i, i < rest.length →
              env.ocr (k + 1 + i) = Except.ok (ts'.getD i "") := by
            intro i hi
            have := hocr (i + 1) (by simp; omega)
            simpa [Nat.add_assoc, Nat.add_comm 1 i] using this
          have hlen' : ts'.length = rest.length := by simpa using hlen
          by_cases hm : pyStrip t = pyStrip c.ocr_text
          · simp only [execFrom, h0, hm, if_true,
                       clickLoop_ok env k _ _ (hclick k) c.click_count 0,
                       ih ts' (k + 1) hlen' hrest,
                       List.zip_cons_cons, List.map_cons, List.flatten_cons,
                       specRegionEvents, if_pos hm]
          · simp only [execFrom, h0, if_neg hm,
                       ih ts' (k + 1) hlen' hrest,
                       List.zip_cons_cons, List.map_cons, List.flatten_cons,
                       specRegionEvents, List.nil_append]

/-- When the first `n` recognitions starting at `k` succeed with texts
`ts`, clicks succeed, and recognition `k + n` raises `e`, the region
loop emits only the blocks of the first `n` regions and propagates the
exception. -/
theorem execFrom_err (env : Env) (e : String) :
    ∀ (n : Nat) (cs : List CaptureInfo) (ts : List String) (k : Nat),
    n < cs.length → ts.length = n →
    (∀ i, i < n → env.ocr (k + i) = Except.ok (ts.getD i "")) →
    (∀ i, i < n → ∀ j, env.clickOk (k + i) j = true) →
    env.ocr (k + n) = Except.error e →
    execFrom env k cs =
      ((((cs.take n).zip ts).map (fun p => specRegionEvents p.2 p.1)).flatten,
       some e) := by
  intro n
  induction n with
  | zero =>
      intro cs ts k hn hlen _ _ herr
      match cs with
      | [] => simp at hn
      | c :: rest =>
          have : ts = [] := List.eq_nil_of_length_eq_zero hlen
          subst this
          simp only [execFrom, Nat.add_zero] at herr ⊢
          simp [herr]
  | succ m ih =>
      intro cs ts k hn hlen hocr hclick herr
      match cs with
      | [] => simp at hn
      | c :: rest =>
          match ts with
          | [] => simp at hlen
          | t :: ts' =>
              have h0 : env.ocr k = Except.ok t := by
                have := hocr 0 (by omega)
                simpa using this
              have hck : ∀ j, env.clickOk k j = true := by
                have := hclick 0 (by omega)
                simpa using this
              have hocr' : ∀ i, i < m →
                  env.ocr (k + 1 + i) = Except.ok (ts'.getD i "") := by
                intro i hi
                have := hocr (i + 1) (by omega)
                simpa [Nat.add_assoc, Nat.add_comm 1 i] using this
              have hclick' : ∀ i, i < m → ∀ j,
                  env.clickOk (k + 1 + i) j = true := by
                intro i hi j
                have := hclick (i + 1) (by omega) j
                simpa [Nat.add_assoc, Nat.add_comm 1 i] using this
              have herr' : env.ocr (k + 1 + m) = Except.error e := by
                simpa [Nat.add_assoc, Nat.add_comm 1 m] using herr
              have hrec := ih rest ts' (k + 1) (by simpa using hn)
                (by simpa using hlen) hocr' hclick' herr'
              by_cases hm : pyStrip t = pyStrip c.ocr_text
              · simp only [execFrom, h0, if_pos hm,
                           clickLoop_ok env k _ _ hck c.click_count 0,
                           hrec, List.take_succ_cons, List.zip_cons_cons,
                           List.map_cons, List.flatten_cons,
                           specRegionEvents, if_pos hm]
              · simp only [execFrom, h0, if_neg hm, hrec,
                           List.take_succ_cons, List.zip_cons_cons,
                           List.map_cons, List.flatten_cons,
                           specRegionEvents, if_neg hm, List.nil_append]

/-- When the first `j` clicks of region `ridx` succeed and click `j`
raises, the click loop issues `j` move-and-click pairs, then the move
of the failing iteration, and propagates the exception. -/
theorem clickLoop_fail (env : Env) (ridx : Nat) (cx cy : Int) :
    ∀ (j i n : Nat), j < n →
    (∀ j', j' < j → env.clickOk ridx (i + j') = true) →
    env.clickOk ridx (i + j) = false →
    clickLoop env ridx cx cy i n =
      ((List.replicate j [Ev.moveTo cx cy, Ev.click]).flatten ++
         [Ev.moveTo cx cy],
       some "click failed") := by
  intro j
  induction j with
  | zero =>
      intro i n hn _ hfail
      match n with
      | 0 => omega
      | m + 1 =>
          simp only [Nat.add_zero] at hfail
          simp [clickLoop, hfail]
  | succ p ih =>
      intro i n hn hok hfail
      match n with
      | 0 => omega
      | m + 1 =>
          have h0 : env.clickOk ridx i = true := by
            have := hok 0 (by omega)
            simpa using this
          have hok' : ∀ j', j' < p → env.clickOk ridx (i + 1 + j') = true := by
            intro j' hj'
            have := hok (j' + 1) (by omega)
            simpa [Nat.add_assoc, Nat.add_comm 1 j'] using this
          have hfail' : env.clickOk ridx (i + 1 + p) = false := by
            simpa [Nat.add_assoc, Nat.add_comm 1 p] using hfail
          have hrec := ih (i + 1) m (by omega) hok' hfail'
          simp only [clickLoop, h0, if_true, hrec, List.replicate_succ,
                     List.flatten_cons, List.cons_append, List.nil_append]

/-- Processing a store that starts with a prefix of cleanly handled
regions (recognitions succeed, clicks succeed) emits that prefix's
spec blocks and continues with the remaining regions, whose outcome
is passed through. -/
theorem execFrom_append_ok (env : Env) :
    ∀ (pre : List CaptureInfo) (ts : List String) (k : Nat)
      (rest : List CaptureInfo),
    ts.length = pre.length →
    (∀ i, i < pre.length → env.ocr (k + i) = Except.ok (ts.getD i "")) →
    (∀ i, i < pre.length → ∀ j, env.clickOk (k + i) j = true) →
    execFrom env k (pre ++ rest) =
      (((pre.zip ts).map (fun p => specRegionEvents p.2 p.1)).flatten ++
         (execFrom env (k + pre.length) rest).1,
       (execFrom env (k + pre.length) rest).2) := by
  intro pre
  induction pre with
  | nil => intro ts k rest _ _ _; simp
  | cons c pre' ih =>
      intro ts k rest hlen hocr hclick
      match ts with
      | [] => simp at hlen
      | t :: ts' =>
          have h0 : env.ocr k = Except.ok t := by
            have := hocr 0 (by simp)
            simpa using this
          have hck : ∀ j, env.clickOk k j = true := by
            have := hclick 0 (by simp)
            simpa using this
          have hocr' : ∀ i, i < pre'.length →
              env.ocr (k + 1 + i) = Except.ok (ts'.getD i "") := by
            intro i hi
            have := hocr (i + 1) (by simp; omega)
            simpa [Nat.add_assoc, Nat.add_comm 1 i] using this
          have hclick' : ∀ i, i < pre'.length → ∀ j,
              env.clickOk (k + 1 + i) j = true := by
            intro i hi j
            have := hclick (i + 1) (by simp; omega) j
            simpa [Nat.add_assoc, Nat.add_comm 1 i] using this
          have hrec := ih ts' (k + 1) rest (by simpa using hlen) hocr' hclick'
          have hk : k + 1 + pre'.length = k + (pre'.length + 1) := by omega
          by_cases hm : pyStrip t = pyStrip c.ocr_text
          · simp only [List.cons_append, List.append_eq, execFrom, h0,
                       if_pos hm, clickLoop_ok env k _ _ hck c.click_count 0,
                       hrec, hk, List.zip_cons_cons, List.map_cons,
                       List.flatten_cons, specRegionEvents, if_pos hm,
                       List.length_cons, List.append_assoc]
          · simp only [List.cons_append, List.append_eq, execFrom, h0,
                       if_neg hm, hrec, hk, List.zip_cons_cons, List.map_cons,
                       List.flatten_cons, specRegionEvents, if_neg hm,
                       List.length_cons, List.nil_append]

/-- Loading the serialisation of a store yields the store back, in
order, with no warning. -/
theorem loadRecords_map_to_dict (cs : List CaptureInfo)
    (hb : ∀ c ∈ cs, ∀ b ∈ c.image, b < 256) :
    loadRecords (cs.map CaptureInfo.to_dict) = (cs, false) := by
  induction cs with
  | nil => rfl
  | cons c rest ih =>
      have h0 := from_dict_to_dict c (hb c (by simp))
      have hrest := ih (fun c' hc' b hbb => hb c' (by simp [hc']) b hbb)
      simp only [List.map_cons, loadRecords, h0, hrest]

/-- Loading records where a prefix deserialises and the next record
fails yields the deserialised prefix with a warning. -/
theorem loadRecords_stops_at_failure :
    ∀ (pre : List CaptureDict) (d : CaptureDict) (post : List CaptureDict),
    (∀ d' ∈ pre, (CaptureInfo.from_dict d').isSome) →
    CaptureInfo.from_dict d = none →
    loadRecords (pre ++ d :: post) =
      (pre.filterMap CaptureInfo.from_dict, true) := by
  intro pre
  induction pre with
  | nil =>
      intro d post _ hbad
      simp [loadRecords, hbad]
  | cons d0 rest ih =>
      intro d post hpre hbad
      obtain ⟨c0, hc0⟩ := Option.isSome_iff_exists.mp (hpre d0 (by simp))
      have hrest := ih d post (fun d' hd' => hpre d' (by simp [hd'])) hbad
      simp [List.cons_append, loadRecords, hc0, hrest, List.filterMap_cons]

/-- The runner invariant is preserved by every transition. -/
theorem step_inv {s : Sys} {l : L} {s' : Sys}
    (h : SysInv s) (hs : Step s l s') : SysInv s' := by
  cases hs <;> simp_all [SysInv]
  omega

/-- Every reachable runner state satisfies the invariant. -/
theorem reach_inv {s : Sys} (hr : Reach s) : SysInv s := by
  induction hr with
  | init => simp [SysInv, Sys.init]
  | step _ hs ih => exact step_inv ih hs

/-- C3: For every store of zero or more regions, `save()` followed by
`load()` yields an equivalent store: the same regions in the same
order, each with equal x, y, width, height, ocr_text, click_count and
a byte-identical (hence pixel-identical) image, with no warning. -/
theorem C3_save_load_roundtrip (cs : List CaptureInfo)
    (hb : ∀ c ∈ cs, ∀ b ∈ c.image, b < 256) :
    load_captures_from_json (save_captures_to_json cs) [] = (cs, false) := by
  simp only [save_captures_to_json, load_captures_from_json,
             loadRecords_map_to_dict cs hb]

/-- Witness for C3 at the spec's one-region scenario store. -/
theorem C3_save_load_roundtrip_witness :
    load_captures_from_json (save_captures_to_json [capGo]) [] =
      ([capGo], false) :=
  C3_save_load_roundtrip [capGo] (by decide)

/-- C4: On the preset set 1, 2, 3, 5, 10 the cycle function advances
along 1→2→3→5→10→1, stays in the set, is injective on it, and its
fifth iterate is the identity. -/
theorem C4_cycle_click_count (n : Nat) (h : n ∈ counts) :
    cycleClickCount n ∈ counts ∧
    cycleClickCount 1 = 2 ∧ cycleClickCount 2 = 3 ∧ cycleClickCount 3 = 5 ∧
    cycleClickCount 5 = 10 ∧ cycleClickCount 10 = 1 ∧
    (∀ m ∈ counts, cycleClickCount m = cycleClickCount n → m = n) ∧
    cycleClickCount^[5] n = n := by
  simp only [counts, List.mem_cons, List.not_mem_nil, or_false] at h
  rcases h with rfl | rfl | rfl | rfl | rfl <;> decide

/-- Witness for C4 at click_count 10: the cycle wraps to 1 and five
applications return to 10. -/
theorem C4_cycle_click_count_witness :
    cycleClickCount 10 = 1 ∧ cycleClickCount^[5] 10 = 10 := by
  have h := C4_cycle_click_count 10 (by decide)
  exact ⟨h.2.2.2.2.2.1, h.2.2.2.2.2.2.2⟩

/-- C8: The executor writes nothing to the store: after any number of
batch runs, under any worlds (including ones whose recognitions differ
from the stored texts), the store — in particular every region's
`ocr_text` and reference image — is exactly as it was. -/
theorem C8_executor_frame (envs : List Env) (s : StoreState) :
    runBatches envs s = s ∧
    (runBatches envs s).captures.map (fun c => (c.ocr_text, c.image)) =
      s.captures.map (fun c => (c.ocr_text, c.image)) := by
  have h : runBatches envs s = s := by
    induction envs with
    | nil => rfl
    | cons e rest ih => exact ih
  exact ⟨h, by rw [h]⟩

/-- C9: Deserialising a record with no `click_count` field yields a
region whose `click_count` is 1, all other fields taken from the
record (the image being the decoded bytes). -/
theorem C9_from_dict_missing_click_count (d : CaptureDict) (c : CaptureInfo)
    (hmiss : d.click_count = none)
    (h : CaptureInfo.from_dict d = some c) :
    c.click_count = 1 ∧ c.x = d.x ∧ c.y = d.y ∧ c.width = d.width ∧
    c.height = d.height ∧ c.ocr_text = d.ocr_text ∧
    b64decode d.encoded_image = some c.image := by
  unfold CaptureInfo.from_dict at h
  cases hb : b64decode d.encoded_image with
  | none => rw [hb] at h; cases h
  | some bytes =>
      rw [hb] at h
      simp only [Option.some.injEq] at h
      subst h
      simp [hmiss, hb]

/-- A concrete record with the `click_count` field absent. -/
def dictNoCount : CaptureDict :=
  { x := 1, y := 2, width := 3, height := 4, ocr_text := "A",
    click_count := none, encoded_image := b64encode [7] }

/-- The capture that `from_dict` rebuilds from `dictNoCount`. -/
def capNoCount : CaptureInfo :=
  { x := 1, y := 2, width := 3, height := 4, image := [7], ocr_text := "A",
    click_count := 1 }

/-- Witness for C9 at `dictNoCount`. -/
theorem C9_from_dict_missing_click_count_witness :
    capNoCount.click_count = 1 ∧ capNoCount.x = dictNoCount.x ∧
    capNoCount.y = dictNoCount.y ∧ capNoCount.width = dictNoCount.width ∧
    capNoCount.height = dictNoCount.height ∧
    capNoCount.ocr_text = dictNoCount.ocr_text ∧
    b64decode dictNoCount.encoded_image = some capNoCount.image :=
  C9_from_dict_missing_click_count dictNoCount capNoCount rfl (by decide)

/-- C10: On a click_count outside the preset set the cycle position
defaults to index 0, so one application yields `counts[1] = 2`,
not 1. -/
theorem C10_cycle_nonpreset (n : Nat) (h : n ∉ counts) :
    cycleClickCount n = 2 := by
  simp only [cycleClickCount, if_neg h]
  decide

/-- Witness for C10 at the non-preset value 7. -/
theorem C10_cycle_nonpreset_witness : cycleClickCount 7 = 2 :=
  C10_cycle_nonpreset 7 (by decide)

/-- C1: When every fresh recognition succeeds and every click
succeeds, the batch executor emits, region by region in store order,
exactly the spec's per-region behaviour: `click_count` clicks at
`(x + width // 2, y + height // 2)` on an exact stripped match,
nothing on a mismatch (processing continuing); afterwards it restores
the pointer, with no error. -/
theorem C1_executor_contract (env : Env) (cs : List CaptureInfo)
    (ts : List String) (m : Bool)
    (hlen : ts.length = cs.length)
    (hocr : ∀ i, i < cs.length → env.ocr i = Except.ok (ts.getD i ""))
    (hclick : ∀ i j, env.clickOk i j = true) :
    execute_all_clicks env cs m =
      { events := ((cs.zip ts).map (fun p => specRegionEvents p.2 p.1)).flatten
                    ++ [Ev.moveTo env.pos.1 env.pos.2]
        error := none
        reported := false } := by
  have h := execFrom_ok env hclick cs ts 0 hlen
    (fun i hi => by simpa using hocr i hi)
  simp only [execute_all_clicks, h]

/-- Witness for C1 at the spec's scenario: region (10, 10, 50, 20)
with text "Go" and two clicks, live recognition "Go": two
move-and-click pairs at (35, 20), then pointer restore. -/
theorem C1_executor_contract_witness :
    execute_all_clicks envGo [capGo] false =
      { events := (([capGo].zip ["Go"]).map
                    (fun p => specRegionEvents p.2 p.1)).flatten
                    ++ [Ev.moveTo envGo.pos.1 envGo.pos.2]
        error := none
        reported := false } ∧
    execute_all_clicks envGo [capGo] false =
      { events := [Ev.moveTo 35 20, Ev.click, Ev.moveTo 35 20, Ev.click,
                   Ev.moveTo 100 200]
        error := none
        reported := false } :=
  ⟨C1_executor_contract envGo [capGo] ["Go"] false rfl
      (fun i hi => by
        simp only [List.length_singleton] at hi
        have hz : i = 0 := by omega
        subst hz
        rfl)
      (fun i j => rfl),
   by decide⟩

/-- C2 as stated is false: on an exception the pointer is never
restored (the restoring `moveTo` sits inside the `try` block after the
loop), and in infinite mode the error is not even reported. Here the
first recognition raises: in infinite mode nothing is reported, and in
reported mode the event trace is empty — in particular it contains no
`moveTo` back to the start position (5, 7). -/
theorem C2_counterexample :
    (execute_all_clicks envBoom [capGo] true).reported = false ∧
    (execute_all_clicks envBoom [capGo] false).events = [] := by
  decide

/-- C2 amended: any exception aborts the batch with no pointer restore
attempted, and the error is reported to the user exactly when not in
infinite mode. First conjunct: a capture/recognition exception at
region `k` after `k` cleanly processed regions — only the event blocks
of those `k` regions are emitted. Second conjunct: a click-primitive
exception on click `j` of a matched region after the cleanly processed
prefix — the prefix blocks, `j` completed move-and-click pairs, and
the failing iteration's move are emitted. -/
theorem C2_abort_semantics (env : Env) (m : Bool) :
    (∀ (cs : List CaptureInfo) (ts : List String) (k : Nat) (e : String),
      k < cs.length → ts.length = k →
      (∀ i, i < k → env.ocr i = Except.ok (ts.getD i "")) →
      (∀ i, i < k → ∀ j, env.clickOk i j = true) →
      env.ocr k = Except.error e →
      execute_all_clicks env cs m =
        { events := (((cs.take k).zip ts).map
                      (fun p => specRegionEvents p.2 p.1)).flatten
          error := some e
          reported := !m }) ∧
    (∀ (pre : List CaptureInfo) (c : CaptureInfo) (post : List CaptureInfo)
       (ts : List String) (tk : String) (j : Nat),
      ts.length = pre.length →
      (∀ i, i < pre.length → env.ocr i = Except.ok (ts.getD i "")) →
      (∀ i, i < pre.length → ∀ jj, env.clickOk i jj = true) →
      env.ocr pre.length = Except.ok tk →
      pyStrip tk = pyStrip c.ocr_text →
      j < c.click_count →
      (∀ j', j' < j → env.clickOk pre.length j' = true) →
      env.clickOk pre.length j = false →
      execute_all_clicks env (pre ++ c :: post) m =
        { events := ((pre.zip ts).map
                      (fun p => specRegionEvents p.2 p.1)).flatten ++
                    ((List.replicate j
                       [Ev.moveTo (c.x + Int.fdiv c.width 2)
                          (c.y + Int.fdiv c.height 2), Ev.click]).flatten ++
                     [Ev.moveTo (c.x + Int.fdiv c.width 2)
                        (c.y + Int.fdiv c.height 2)])
          error := some "click failed"
          reported := !m }) := by
  constructor
  · intro cs ts k e hk hlen hocr hclick herr
    have h := execFrom_err env e k cs ts 0 hk hlen
      (fun i hi => by simpa using hocr i hi)
      (fun i hi jj => by simpa using hclick i hi jj)
      (by simpa using herr)
    simp only [execute_all_clicks, h]
  · intro pre c post ts tk j hlen hocr hclick ht hm hj hok hfail
    have happ := execFrom_append_ok env pre ts 0 (c :: post) hlen
      (fun i hi => by simpa using hocr i hi)
      (fun i hi jj => by simpa using hclick i hi jj)
    have hcl := clickLoop_fail env pre.length
      (c.x + Int.fdiv c.width 2) (c.y + Int.fdiv c.height 2)
      j 0 c.click_count hj
      (fun j' hj' => by simpa using hok j' hj') (by simpa using hfail)
    have hone : execFrom env pre.length (c :: post) =
        ((List.replicate j [Ev.moveTo (c.x + Int.fdiv c.width 2)
             (c.y + Int.fdiv c.height 2), Ev.click]).flatten ++
           [Ev.moveTo (c.x + Int.fdiv c.width 2)
              (c.y + Int.fdiv c.height 2)],
         some "click failed") := by
      simp only [execFrom, ht, if_pos hm, hcl]
    simp only [execute_all_clicks, happ, Nat.zero_add, hone]

/-- Witness for the amended C2, exercising both exception sources: a
recognition failure "boom" aborts with no events and a shown dialog; a
click-primitive failure on the second click of the spec's region emits
one completed move-and-click pair plus the failing move, aborts, and
shows the dialog. -/
theorem C2_abort_semantics_witness :
    (execute_all_clicks envBoom [capGo] false =
      { events := ((([capGo].take 0).zip ([] : List String)).map
                    (fun p => specRegionEvents p.2 p.1)).flatten
        error := some "boom"
        reported := !false }) ∧
    (execute_all_clicks envClickFail ([] ++ capGo :: []) false =
      { events := ((([] : List CaptureInfo).zip ([] : List String)).map
                    (fun p => specRegionEvents p.2 p.1)).flatten ++
                  ((List.replicate 1
                     [Ev.moveTo (capGo.x + Int.fdiv capGo.width 2)
                        (capGo.y + Int.fdiv capGo.height 2), Ev.click]).flatten ++
                   [Ev.moveTo (capGo.x + Int.fdiv capGo.width 2)
                      (capGo.y + Int.fdiv capGo.height 2)])
        error := some "click failed"
        reported := !false }) :=
  ⟨(C2_abort_semantics envBoom false).1 [capGo] [] 0 "boom" (by decide) rfl
      (fun i hi => absurd hi (Nat.not_lt_zero i))
      (fun i hi jj => absurd hi (Nat.not_lt_zero i)) rfl,
   (C2_abort_semantics envClickFail false).2 [] capGo [] [] "Go" 1 rfl
      (fun i hi => absurd hi (Nat.not_lt_zero i))
      (fun i hi jj => absurd hi (Nat.not_lt_zero i))
      rfl (by decide) (by decide)
      (fun j' hj' => by
        have hz : j' = 0 := by omega
        subst hz
        rfl)
      rfl⟩

/-- C5 as stated is false: for the out-of-range index -1 (no selection)
`delete_capture` does not fail with an IndexError-class condition — the
`current_row >= 0` guard makes it a silent no-op (store and file are
indeed unchanged). -/
theorem C5_counterexample :
    (delete_capture storeOne (-1)).1 = none ∧
    (delete_capture storeOne (-1)).2 = storeOne := by
  constructor <;> rfl

/-- C5 amended: a negative index is a silent no-op leaving store and
file unchanged; an index at or beyond the length fails with IndexError
leaving store and file unchanged; an index inside [0, len) deletes
exactly that region (the elements before it and after it survive in
order) and persists the result. -/
theorem C5_remove_semantics (s : StoreState) (i : Int) :
    (i < 0 → delete_capture s i = (none, s)) ∧
    ((s.captures.length : Int) ≤ i →
      delete_capture s i = (some "IndexError", s)) ∧
    (0 ≤ i → i < (s.captures.length : Int) →
      delete_capture s i =
        (none,
         { captures := s.captures.take i.toNat ++
                       s.captures.drop (i.toNat + 1)
           file := save_captures_to_json
             (s.captures.take i.toNat ++ s.captures.drop (i.toNat + 1)) })) := by
  refine ⟨?_, ?_, ?_⟩
  · intro hneg
    rw [delete_capture, if_neg (by omega)]
  · intro hge
    rw [delete_capture, if_pos (by omega), if_neg (by omega)]
  · intro h0 hlt
    rw [delete_capture, if_pos h0, if_pos (by omega),
        List.eraseIdx_eq_take_drop_succ]

/-- Witness for the amended C5: deleting index 0 of the one-region
store empties it and persists the empty collection. -/
theorem C5_remove_semantics_witness :
    delete_capture storeOne 0 =
      (none,
       { captures := storeOne.captures.take 0 ++ storeOne.captures.drop 1
         file := save_captures_to_json
           (storeOne.captures.take 0 ++ storeOne.captures.drop 1) }) :=
  (C5_remove_semantics storeOne 0).2.2 (by decide) (by decide)

/-- C6 as stated is false: a missing file yields no warning at all,
and malformed content does not always yield an empty store — with a
good record before a bad one the loop keeps the good one. -/
theorem C6_counterexample :
    (load_captures_from_json FileContent.missing []).2 = false ∧
    (load_captures_from_json
        (FileContent.records [CaptureInfo.to_dict capGo, dictBad]) []).1 =
      [capGo] := by
  constructor
  · rfl
  · decide

/-- C6 amended: a missing file leaves the (empty at startup) store and
shows no warning; unparseable JSON leaves the store and shows a
warning; a record list with a failing record yields exactly the
records decoded before the failure, with a warning — and the loader
always returns instead of crashing. -/
theorem C6_load_degradation :
    (∀ cs0, load_captures_from_json FileContent.missing cs0 = (cs0, false)) ∧
    (∀ cs0, load_captures_from_json FileContent.invalid cs0 = (cs0, true)) ∧
    (∀ pre d post, (∀ d' ∈ pre, (CaptureInfo.from_dict d').isSome) →
      CaptureInfo.from_dict d = none →
      load_captures_from_json (FileContent.records (pre ++ d :: post)) [] =
        (pre.filterMap CaptureInfo.from_dict, true)) := by
  refine ⟨fun cs0 => rfl, fun cs0 => rfl, fun pre d post h1 h2 => ?_⟩
  simp only [load_captures_from_json, loadRecords_stops_at_failure pre d post h1 h2]

/-- Witness for the amended C6: one good record then one bad record
loads the good capture and warns. -/
theorem C6_load_degradation_witness :
    load_captures_from_json
        (FileContent.records ([CaptureInfo.to_dict capGo] ++ dictBad :: [])) [] =
      ([CaptureInfo.to_dict capGo].filterMap CaptureInfo.from_dict, true) :=
  C6_load_degradation.2.2 [CaptureInfo.to_dict capGo] dictBad []
    (by decide) (by decide)

/-- C7: In every reachable runner state at most one loop is active; a
start request while a worker is running can only take the no-op
reporting branch and spawns nothing; a stop request while idle is a
no-op; the loop only exits outside a batch; and `wait()` can only
return — letting `stop` return — when no loop (hence no in-flight
batch) remains. -/
theorem C7_runner_state_machine (s : Sys) (hr : Reach s) :
    s.activeLoops ≤ 1 ∧
    (∀ s', s.workerRef = true → ¬ Step s L.startSpawn s') ∧
    (∀ s', s.workerRef = true → Step s L.startNoop s' → s' = s) ∧
    (∀ s', s.workerRef = false → Step s L.stopNoop s' → s' = s) ∧
    (∀ s', Step s L.loopExit s' → s.inBatch = false) ∧
    (∀ s', Step s L.stopReturn s' → s.inBatch = false) := by
  obtain ⟨h1, h2, h3, h4, h5⟩ := reach_inv hr
  refine ⟨h1, ?_, ?_, ?_, ?_, ?_⟩
  · intro s' hw hstep
    cases hstep with
    | startSpawn h => rw [hw] at h; cases h
  · intro s' _ hstep
    cases hstep with
    | startNoop h => rfl
  · intro s' _ hstep
    cases hstep with
    | stopNoop h => rfl
  · intro s' hstep
    cases hstep with
    | loopExit g1 g2 g3 => exact g3
  · intro s' hstep
    cases hstep with
    | stopReturn g g0 => exact h3 g0

/-- Witness for C7 at the reachable state right after one start:
exactly one loop is active. -/
theorem C7_runner_state_machine_witness :
    ({ workerRef := true, activeLoops := 1, keepRunning := true,
       inBatch := false, waiting := false } : Sys).activeLoops ≤ 1 :=
  (C7_runner_state_machine _
    (Reach.step Reach.init (Step.startSpawn Sys.init rfl))).1

end TosIosAuto
